import Mathlib

/-!
Verification of the weather-check agent (`weather_check_agent.py`).

The development shallowly embeds the pure, decidable core of the program:

* `analyze_weather_match` — the match analyzer (source lines 326-368), including a
  faithful model of the two fixed `re.search` patterns
  `Current weather in .+?: (.+?)\.` and `Expected: (.+?)(?:\.|$)` with Python's
  leftmost / lazy / backtracking semantics (`.` does not match a newline, `$`
  matches at the end of the string or just before a final trailing newline).
* `check_weather` — the tool that fetches a page and runs the cascading
  extraction chain (source lines 171-324).  The browser is an external
  collaborator; its observable behaviour is the `WebEnv` parameter (driver
  setup failure, a navigation exception, or a fetched `Page`).
* the CLI exit-code mapping of `main` (source lines 395-422).
* a reasoning loop with a hard step ceiling; the loop itself is the LangChain
  `AgentExecutor` configured with `max_iterations=3` and is modelled from the
  design description.

Strings are embedded as `List Char`; Python's `str.lower`, `str.strip`,
`str.split` and the substring operator `in` are given explicit executable
definitions below.
-/

/-- ASCII lower-casing of one character, embedding Python `str.lower` on the
ASCII strings handled by the program. -/
def pyLowerChar (c : Char) : Char :=
  if 'A' ≤ c ∧ c ≤ 'Z' then Char.ofNat (c.toNat + 32) else c

/-- Embedding of Python `str.lower`. -/
def pyLower (s : List Char) : List Char := s.map pyLowerChar

/-- Python whitespace as removed by `str.strip`. -/
def isPySpace (c : Char) : Bool :=
  c = ' ' || c = '\t' || c = '\n' || c = '\r' || c = Char.ofNat 11 || c = Char.ofNat 12

/-- Embedding of Python `str.strip`: drop whitespace from both ends. -/
def pyStrip (s : List Char) : List Char :=
  ((s.dropWhile isPySpace).reverse.dropWhile isPySpace).reverse

/-- `dropLit lit s` returns `some r` when `s = lit ++ r`, i.e. the literal
`lit` matches at the head of `s`; the workhorse for literal regex fragments. -/
def dropLit : List Char → List Char → Option (List Char)
  | [], s => some s
  | _ :: _, [] => none
  | l :: ls, c :: cs => if c = l then dropLit ls cs else none

/-- Embedding of the Python substring operator: `containsSub hay needle` is
`needle in hay`. -/
def containsSub (hay needle : List Char) : Bool :=
  match hay with
  | [] => needle.isEmpty
  | _ :: t => (dropLit needle hay).isSome || containsSub t needle

/-- Embedding of Python `str.split` with a one-character separator. -/
def pySplitChar (sep : Char) : List Char → List (List Char)
  | [] => [[]]
  | c :: cs =>
    if c = sep then [] :: pySplitChar sep cs
    else
      match pySplitChar sep cs with
      | [] => [[c]]
      | seg :: rest => (c :: seg) :: rest

/-- Generic `re.search` skeleton for the three patterns of the program, all of
which start with a fixed literal: try every start position from the left; at a
start where the literal matches, run the continuation `k` (which performs all
backtracking to the right of the literal); on failure move one position right,
exactly as Python's scanning `re.search` does. -/
def searchLit (lit : List Char) (k : List Char → Option (List Char)) :
    List Char → Option (List Char)
  | [] => none
  | c :: cs =>
    match dropLit lit (c :: cs) with
    | some rest =>
      match k rest with
      | some cap => some cap
      | none => searchLit lit k cs
    | none => searchLit lit k cs

/-- Lazy matching of `(.+?)\.` once at least one character (held reversed in
`acc`) has been consumed: end the capture at the first following `'.'`, fail if
a newline is reached first (Python `.` does not match a newline). -/
def lazyCapDotAux (acc : List Char) : List Char → Option (List Char)
  | [] => none
  | c :: cs =>
    if c = '.' then some acc.reverse
    else if c = '\n' then none
    else lazyCapDotAux (c :: acc) cs

/-- Matching of `(.+?)\.`: the capture needs at least one non-newline
character, then extends lazily up to the first `'.'`. -/
def lazyCapDot : List Char → Option (List Char)
  | [] => none
  | c :: cs => if c = '\n' then none else lazyCapDotAux [c] cs

/-- Matching of `.+?: (.+?)\.` (the part of the actual-condition pattern after
the literal anchor): scan for the first `": "` preceded by at least one
character (`seen`), with lazy backtracking: if the capture after a candidate
`": "` fails, the `':'` is absorbed into `.+?` and the scan continues.  A
newline stops the scan since `.` cannot match it. -/
def matchColonCapture : Bool → List Char → Option (List Char)
  | _, [] => none
  | seen, c :: cs =>
    if c = '\n' then none
    else if seen = true ∧ c = ':' ∧ cs.head? = some ' ' then
      match lazyCapDot cs.tail with
      | some cap => some cap
      | none => matchColonCapture true cs
    else matchColonCapture true cs

/-- Lazy matching of `(.+?)(?:\.|$)` once at least one character (reversed in
`acc`) is in the capture: first try the literal `'.'`, then `$` (end of the
string, or just before a single trailing newline), otherwise extend. -/
def lazyCapEndAux (acc : List Char) : List Char → Option (List Char)
  | [] => some acc.reverse
  | c :: cs =>
    if c = '.' then some acc.reverse
    else if c = '\n' ∧ cs = [] then some acc.reverse
    else if c = '\n' then none
    else lazyCapEndAux (c :: acc) cs

/-- Matching of `(.+?)(?:\.|$)`: at least one non-newline character, then the
lazy continuation above. -/
def lazyCapEnd : List Char → Option (List Char)
  | [] => none
  | c :: cs => if c = '\n' then none else lazyCapEndAux [c] cs

/-- The literal anchor of the actual-condition pattern. -/
def cwLit : List Char := ("Current weather in ").toList

/-- The literal anchor of the expected-condition pattern. -/
def expLit : List Char := ("Expected: ").toList

/-- Embedding of `re.search(r"Current weather in .+?: (.+?)\.", s)`, returning
the text of capture group 1. -/
def searchActual (s : List Char) : Option (List Char) :=
  searchLit cwLit (matchColonCapture false) s

/-- Embedding of `re.search(r"Expected: (.+?)(?:\.|$)", s)`, returning the text
of capture group 1. -/
def searchExpected (s : List Char) : Option (List Char) :=
  searchLit expLit lazyCapEnd s

/-- The single-quote character, used inside the rendered verdict strings. -/
def quoteCh : Char := Char.ofNat 39

/-- `group(1).strip().lower()` as applied to both captures by the analyzer. -/
def normalizePhrase (xs : List Char) : List Char := pyLower (pyStrip xs)

/-- The fixed unparseable verdict string of `analyze_weather_match`. -/
def unparseableMsg : List Char := ("Could not parse weather information correctly.").toList

/-- The success verdict template of `analyze_weather_match`. -/
def successMsg (a e : List Char) : List Char :=
  ("✅ SUCCESS: The weather matches your expectation! Actual: ").toList ++ [quoteCh] ++ a ++ [quoteCh]
    ++ (", Expected: ").toList ++ [quoteCh] ++ e ++ [quoteCh]

/-- The failure verdict template of `analyze_weather_match`. -/
def failureMsg (a e : List Char) : List Char :=
  ("❌ FAILURE: The weather doesn").toList ++ [quoteCh]
    ++ ("t match your expectation. Actual: ").toList ++ [quoteCh] ++ a ++ [quoteCh]
    ++ (", Expected: ").toList ++ [quoteCh] ++ e ++ [quoteCh]

/-- Embedding of `WeatherCheckerAgent.analyze_weather_match` (source lines
326-368): extract the two conditions with the fixed patterns, return the
unparseable string when either search fails, otherwise strip and lower-case
both captures and test bidirectional substring containment. -/
def analyze_weather_match (input_str : List Char) : List Char :=
  match searchActual input_str, searchExpected input_str with
  | some a, some e =>
    let actual_condition := normalizePhrase a
    let expected_condition := normalizePhrase e
    if containsSub actual_condition expected_condition
        || containsSub expected_condition actual_condition then
      successMsg actual_condition expected_condition
    else
      failureMsg actual_condition expected_condition
  | _, _ => unparseableMsg

/-- The outcome component of the analyzer verdict. -/
inductive Outcome where
  | Match
  | NoMatch
  | Unparseable
deriving DecidableEq, Repr

/-- The structured outcome of `analyze_weather_match`: `Match` / `NoMatch`
exactly when the success / failure template is rendered, `Unparseable` when a
pattern fails to match. -/
def outcomeOf (input_str : List Char) : Outcome :=
  match searchActual input_str, searchExpected input_str with
  | some a, some e =>
    if containsSub (normalizePhrase a) (normalizePhrase e)
        || containsSub (normalizePhrase e) (normalizePhrase a) then
      Outcome.Match
    else
      Outcome.NoMatch
  | _, _ => Outcome.Unparseable

/-- One fetched document, the observable state of the rendered page that the
four extraction strategies inspect.  `selectorHits` records, for each of the
eight fixed `weather_selectors`, either `none` (the selector wait raised) or
`some t` (an element was found with text `t`).  `textNodes` holds the text of
every `div` node on the page, `title` the page title and `pageSource` the raw
markup. -/
structure Page where
  selectorHits : List (Option (List Char))
  textNodes : List (List Char)
  title : List Char
  pageSource : List Char

/-- Observable behaviour of the external browser collaborator during one
`check_weather` call: `noDriver` when `setup_webdriver` returns `None`,
`navError msg` when the body of the `try` block raises an exception rendered
as `msg`, and `ok p` when a document is fetched. -/
inductive WebEnv where
  | noDriver : WebEnv
  | navError : List Char → WebEnv
  | ok : Page → WebEnv

/-- Strategy 1, StructuredSelector (source lines 224-235): take the first
selector that finds an element whose stripped text is non-empty; an empty
text or a failed selector falls through to the next one. -/
def firstSelectorHit : List (Option (List Char)) → Option (List Char)
  | [] => none
  | none :: rest => firstSelectorHit rest
  | some raw :: rest =>
    let condition := pyStrip raw
    if condition.isEmpty then firstSelectorHit rest else some condition

/-- The closed vocabulary `conditions` of strategy 2 (source lines 242-246). -/
def weatherConditions : List (List Char) :=
  [("Sunny").toList, ("Clear").toList, ("Partly cloudy").toList, ("Cloudy").toList,
   ("Rain").toList, ("Showers").toList, ("Thunderstorm").toList, ("Snow").toList,
   ("Mist").toList, ("Fog").toList, ("Haze").toList, ("Smoke").toList,
   ("Dust").toList, ("Drizzle").toList, ("Overcast").toList]

/-- `condition.lower() in text.lower()` for some vocabulary entry (source
lines 254-255). -/
def nodeHasCondition (text : List Char) : Bool :=
  weatherConditions.any (fun c => containsSub (pyLower text) (pyLower c))

/-- Strategy 2, KeywordScan (source lines 238-262): among the `div` nodes
selected by the XPath `//div[string-length(text()) > 2]` (embedded as the
length filter), take the first whose stripped text contains a vocabulary term
case-insensitively, returning that stripped text. -/
def keywordScan (nodes : List (List Char)) : Option (List Char) :=
  ((nodes.filter (fun t => decide (2 < t.length))).map pyStrip).find? nodeHasCondition

/-- `title.split(" - ")[0]`: the prefix of `s` before the first occurrence of
the separator `sep` (the whole of `s` when the separator is absent). -/
def upToSep (sep : List Char) : List Char → List Char
  | [] => []
  | c :: cs => if (dropLit sep (c :: cs)).isSome then [] else c :: upToSep sep cs

/-- Strategy 3, TitleParse (source lines 265-276): when the title contains
"weather" case-insensitively, the stripped first `" - "`-separated segment of
the title (which may be empty, and is then discarded by the chain's
truthiness gate). -/
def titleParse (title : List Char) : Option (List Char) :=
  if containsSub (pyLower title) (("weather").toList) then
    some (pyStrip (upToSep ((" - ").toList) title))
  else none

/-- The greedy `([^<]+)<` tail of each markup pattern: the maximal run of
non-`'<'` characters, required non-empty and required to be followed by a
`'<'`. -/
def capUntilLt (cs : List Char) : Option (List Char) :=
  let run := cs.takeWhile (fun c => c ≠ '<')
  if run ≠ [] ∧ run.length < cs.length then some run else none

/-- The four literal heads of the markup regexes (source lines 285-290). -/
def markupPatternLits : List (List Char) :=
  [("id=\"wob_dc\">").toList, ("class=\"BBwThe\">").toList,
   ("class=\"VQF4g\">").toList, ("data-local-attribute=\"weather-condition\">").toList]

/-- `re.findall(pattern, page_source)[0]` for one markup pattern: the capture
of the leftmost match. -/
def findallHead (lit : List Char) (src : List Char) : Option (List Char) :=
  searchLit lit capUntilLt src

/-- Iterate the markup patterns in order, stripping the first capture found. -/
def markupScanGo : List (List Char) → List Char → Option (List Char)
  | [], _ => none
  | lit :: rest, src =>
    match findallHead lit src with
    | some cap => some (pyStrip cap)
    | none => markupScanGo rest src

/-- Strategy 4, MarkupRegex (source lines 279-299): apply the patterns to the
lower-cased page source; the first pattern with a match wins and its first
capture is stripped (possibly to the empty string). -/
def markupScan (src : List Char) : Option (List Char) :=
  markupScanGo markupPatternLits (pyLower src)

/-- Python truthiness of the `actual_condition` variable: set and non-empty. -/
def isTruthy : Option (List Char) → Bool
  | none => false
  | some t => !t.isEmpty

/-- `orKeep a r` is the effect of one guarded strategy block on
`actual_condition`: the block's own result `r` if it produced one, otherwise
the previous value `a`. -/
def orKeep (a : Option (List Char)) : Option (List Char) → Option (List Char)
  | some t => some t
  | none => a

/-- The cascading extraction chain over one fetched document (source lines
223-299): each of the four strategy blocks runs only while `actual_condition`
is falsy (`None` or the empty string). -/
def extractCondition (p : Page) : Option (List Char) :=
  let a1 := firstSelectorHit p.selectorHits
  let a2 := if isTruthy a1 then a1 else orKeep a1 (keywordScan p.textNodes)
  let a3 := if isTruthy a2 then a2 else orKeep a2 (titleParse p.title)
  let a4 := if isTruthy a3 then a3 else orKeep a3 (markupScan p.pageSource)
  a4

/-- The fixed invalid-format string (source line 184). -/
def invalidFormatMsg : List Char :=
  ("Invalid input format. Please use: city_name|expected_condition").toList

/-- The fixed WebDriver-failure string (source line 191). -/
def webDriverFailMsg : List Char := ("Failed to set up WebDriver.").toList

/-- The navigation-error string (source line 313), carrying `str(e)`. -/
def navErrorMsg (msg : List Char) : List Char :=
  ("Error occurred while checking weather: ").toList ++ msg

/-- The well-formed weather report (source line 308). -/
def weatherReport (city actual expected : List Char) : List Char :=
  ("Current weather in ").toList ++ city ++ (": ").toList ++ actual
    ++ (". Expected: ").toList ++ expected

/-- The no-evidence report (source line 310). -/
def noEvidenceReport (city expected : List Char) : List Char :=
  ("Couldn").toList ++ [quoteCh] ++ ("t extract weather condition for ").toList ++ city
    ++ (". Expected: ").toList ++ expected

/-- Embedding of `WeatherCheckerAgent.check_weather` (source lines 171-324):
split the input on `'|'` and demand exactly two segments; then consult the
browser collaborator, mapping driver-setup failure and navigation exceptions
to their fixed strings and otherwise running the extraction chain, rendering
a report or the no-evidence report according to the truthiness of the
extracted condition. -/
def check_weather (env : WebEnv) (input_str : List Char) : List Char :=
  match pySplitChar '|' input_str with
  | [part0, part1] =>
    let city := pyStrip part0
    let expected_condition := pyStrip part1
    (match env with
     | WebEnv.noDriver => webDriverFailMsg
     | WebEnv.navError msg => navErrorMsg msg
     | WebEnv.ok p =>
       match extractCondition p with
       | some t =>
         if t.isEmpty then noEvidenceReport city expected_condition
         else weatherReport city t expected_condition
       | none => noEvidenceReport city expected_condition)
  | _ => invalidFormatMsg

/-- The literal success marker tested by `main` (source line 415). -/
def successLit : List Char := ("SUCCESS").toList

/-- The exit code `main` derives from the final agent output
(source line 422). -/
def exitCodeFor (output : List Char) : Nat :=
  if containsSub output successLit then 0 else 1

/-- Observable result of `main` (source lines 395-422): whether the usage
message was printed, and the process exit code. -/
structure MainResult where
  usagePrinted : Bool
  code : Nat
deriving DecidableEq, Repr

/-- Embedding of `main` (source lines 395-422): `sys.argv` has the script
name in front, so exactly two positional arguments means `len(sys.argv) = 3`;
a wrong count prints usage and exits 1, otherwise the exit code is 0 exactly
when the agent's final output contains "SUCCESS".  The final output of the
agent run is an input of the model (it is produced by the external reasoning
backend). -/
def mainRun (argv : List (List Char)) (agentOutput : List Char) : MainResult :=
  if argv.length ≠ 3 then ⟨true, 1⟩
  else ⟨false, exitCodeFor agentOutput⟩

/-- Modelled from the spec: the two named capabilities the reasoning loop may
invoke; the loop implementation (LangChain `AgentExecutor`) is not part of the
source file, which only registers the two tools and sets `max_iterations=3`. -/
inductive Capability where
  | CheckWeather
  | AnalyzeMatch
deriving DecidableEq, Repr

/-- Modelled from the spec: one decision of the pluggable reasoning function —
either a capability to invoke with its input, or a final answer. -/
inductive AgentAction where
  | invoke : Capability → List Char → AgentAction
  | finish : List Char → AgentAction

/-- Modelled from the spec: one transcript entry, recording one capability
invocation with its observation. -/
structure LoopStep where
  chosen : Capability
  capInput : List Char
  observation : List Char

/-- Modelled from the spec: the fixed bound-exceeded output emitted when the
ceiling of capability invocations is reached. -/
def boundExceededMsg : List Char :=
  ("Agent could not determine an answer within bounds.").toList

/-- Modelled from the spec: the bounded reasoning loop.  `chooseNext` is the
pluggable reasoning function over the goal and transcript so far, `exec` the
capability registry; each invocation appends one transcript entry and consumes
one unit of the remaining budget; an exhausted budget forces termination with
the fixed bound-exceeded output. -/
def runLoop (chooseNext : List Char → List LoopStep → AgentAction)
    (exec : Capability → List Char → List Char) (goal : List Char) :
    Nat → List LoopStep → List Char × List LoopStep
  | 0, transcript => (boundExceededMsg, transcript)
  | n + 1, transcript =>
    match chooseNext goal transcript with
    | AgentAction.finish ans => (ans, transcript)
    | AgentAction.invoke cap inp =>
      runLoop chooseNext exec goal n (transcript ++ [⟨cap, inp, exec cap inp⟩])

/-- Modelled from the spec: one full run of the reasoning loop with the hard
ceiling of 3 capability invocations (`max_iterations=3` in the source),
starting from the empty transcript. -/
def reasoningLoop (chooseNext : List Char → List LoopStep → AgentAction)
    (exec : Capability → List Char → List Char) (goal : List Char) :
    List Char × List LoopStep :=
  runLoop chooseNext exec goal 3 []

/-- The closed vocabulary named by the specification: the source's list minus
the redundant "Partly cloudy" entry (redundant because any text containing
"partly cloudy" also contains "cloudy"). -/
def vocab14 : List (List Char) :=
  [("Sunny").toList, ("Clear").toList, ("Cloudy").toList, ("Rain").toList,
   ("Showers").toList, ("Thunderstorm").toList, ("Snow").toList, ("Mist").toList,
   ("Fog").toList, ("Haze").toList, ("Smoke").toList, ("Dust").toList,
   ("Drizzle").toList, ("Overcast").toList]

/-- Case-insensitive occurrence of some term of the specification's closed
vocabulary. -/
def nodeHasVocab14 (text : List Char) : Bool :=
  vocab14.any (fun c => containsSub (pyLower text) (pyLower c))

/-! ### Helper lemmas about the regex machinery -/

theorem dropLit_append (lit rest : List Char) : dropLit lit (lit ++ rest) = some rest := by
  induction lit with
  | nil => rfl
  | cons l ls ih => simp [dropLit, ih]

theorem dropLit_eq_some {lit s r : List Char} (h : dropLit lit s = some r) : s = lit ++ r := by
  induction lit generalizing s with
  | nil => simpa [dropLit] using h
  | cons l ls ih =>
    cases s with
    | nil => simp [dropLit] at h
    | cons c cs =>
      simp only [dropLit] at h
      split at h
      · next hcl => simp [hcl, ih h]
      · exact absurd h (by simp)

theorem searchLit_eq_none {lit s : List Char} (k : List Char → Option (List Char))
    (h : ¬ lit <:+: s) : searchLit lit k s = none := by
  induction s with
  | nil => rfl
  | cons c cs ih =>
    have hd : dropLit lit (c :: cs) = none := by
      cases hdl : dropLit lit (c :: cs) with
      | none => rfl
      | some r => exact absurd ⟨[], r, by simpa using (dropLit_eq_some hdl).symm⟩ h
    have hih := ih (fun hinf => h (List.infix_cons hinf))
    simp [searchLit, hd, hih]

theorem searchLit_at_head {rest cap : List Char} (c : Char) (lt : List Char)
    (k : List Char → Option (List Char)) (hk : k rest = some cap) :
    searchLit (c :: lt) k ((c :: lt) ++ rest) = some cap := by
  have hd : dropLit (c :: lt) ((c :: lt) ++ rest) = some rest := dropLit_append _ _
  simp only [List.cons_append] at hd ⊢
  simp [searchLit, hd, hk]

theorem searchLit_skip {pre s : List Char} {h0 : Char} (lt : List Char)
    (k : List Char → Option (List Char)) (hpre : h0 ∉ pre) :
    searchLit (h0 :: lt) k (pre ++ s) = searchLit (h0 :: lt) k s := by
  induction pre with
  | nil => rfl
  | cons c cs ih =>
    have hc : c ≠ h0 := fun hc => hpre (by simp [hc])
    have hd : dropLit (h0 :: lt) (c :: (cs ++ s)) = none := by
      simp [dropLit, hc]
    simp only [List.cons_append]
    simp [searchLit, hd, ih (fun hm => hpre (List.mem_cons_of_mem _ hm))]

theorem lazyCapDotAux_append {xs : List Char} (acc rest : List Char) (hn : '\n' ∉ xs) :
    lazyCapDotAux acc (xs ++ '.' :: rest) = some (acc.reverse ++ xs.takeWhile (fun c => c ≠ '.')) := by
  induction xs generalizing acc with
  | nil => simp [lazyCapDotAux]
  | cons x xs ih =>
    by_cases hx : x = '.'
    · simp [lazyCapDotAux, hx]
    · have hxn : x ≠ '\n' := fun hc => hn (by simp [hc])
      have hrec := ih (x :: acc) (fun hm => hn (List.mem_cons_of_mem _ hm))
      simp [lazyCapDotAux, hx, hxn, hrec, List.takeWhile_cons, List.append_assoc]

theorem lazyCapDot_append {xs : List Char} (rest : List Char) (hne : xs ≠ [])
    (hn : '\n' ∉ xs) (hhd : xs.head? ≠ some '.') :
    lazyCapDot (xs ++ '.' :: rest) = some (xs.takeWhile (fun c => c ≠ '.')) := by
  cases xs with
  | nil => exact absurd rfl hne
  | cons x xs =>
    have hx : x ≠ '.' := fun hc => hhd (by simp [hc])
    have hxn : x ≠ '\n' := fun hc => hn (by simp [hc])
    have hrec := lazyCapDotAux_append [x] rest (fun hm => hn (List.mem_cons_of_mem _ hm))
    simp [lazyCapDot, hxn, hrec, List.takeWhile_cons, hx]

theorem matchColonCapture_append {city rest cap : List Char} (b : Bool)
    (hb : city ≠ [] ∨ b = true) (hn : '\n' ∉ city) (hcs : ¬ [':', ' '] <:+: city)
    (hcap : lazyCapDot rest = some cap) :
    matchColonCapture b (city ++ ':' :: ' ' :: rest) = some cap := by
  induction city generalizing b with
  | nil =>
    have hb' : b = true := hb.resolve_left (fun hc => hc rfl)
    subst hb'
    simp [matchColonCapture, hcap]
  | cons c cs ih =>
    have hcn : c ≠ '\n' := fun hc => hn (by simp [hc])
    have hrec := ih true (Or.inr rfl) (fun hm => hn (List.mem_cons_of_mem _ hm))
      (fun hinf => hcs (List.infix_cons hinf))
    simp only [List.cons_append, matchColonCapture]
    simp [hcn, hrec]
    intro hb' hc hh
    cases cs with
    | nil => simp at hh
    | cons d ds =>
      simp at hh
      exact absurd ⟨[], ds, by simp [hc, hh]⟩ hcs

theorem lazyCapEndAux_eq {xs : List Char} (acc : List Char) (hn : '\n' ∉ xs) :
    lazyCapEndAux acc xs = some (acc.reverse ++ xs.takeWhile (fun c => c ≠ '.')) := by
  induction xs generalizing acc with
  | nil => simp [lazyCapEndAux]
  | cons x xs ih =>
    by_cases hx : x = '.'
    · simp [lazyCapEndAux, hx]
    · have hxn : x ≠ '\n' := fun hc => hn (by simp [hc])
      have hrec := ih (x :: acc) (fun hm => hn (List.mem_cons_of_mem _ hm))
      simp [lazyCapEndAux, hx, hxn, hrec, List.takeWhile_cons, List.append_assoc]

theorem lazyCapEnd_eq {xs : List Char} (hne : xs ≠ []) (hn : '\n' ∉ xs)
    (hhd : xs.head? ≠ some '.') :
    lazyCapEnd xs = some (xs.takeWhile (fun c => c ≠ '.')) := by
  cases xs with
  | nil => exact absurd rfl hne
  | cons x xs =>
    have hx : x ≠ '.' := fun hc => hhd (by simp [hc])
    have hxn : x ≠ '\n' := fun hc => hn (by simp [hc])
    have hrec := lazyCapEndAux_eq [x] (fun hm => hn (List.mem_cons_of_mem _ hm))
    simp [lazyCapEnd, hxn, hrec, List.takeWhile_cons, hx]

theorem containsSub_iff {hay needle : List Char} :
    containsSub hay needle = true ↔ needle <:+: hay := by
  induction hay with
  | nil =>
    simp only [containsSub, List.isEmpty_iff]
    constructor
    · intro h; simp [h]
    · rintro ⟨s, t, he⟩
      have := List.append_eq_nil.mp (List.append_eq_nil.mp he).1
      exact this.2
  | cons c cs ih =>
    simp only [containsSub, Bool.or_eq_true, ih]
    constructor
    · rintro (hd | hinf)
      · obtain ⟨r, hr⟩ := Option.isSome_iff_exists.mp hd
        exact ⟨[], r, by simp [(dropLit_eq_some hr).symm]⟩
      · exact List.infix_cons hinf
    · rintro ⟨s, t, he⟩
      cases s with
      | nil =>
        left
        have : dropLit needle (c :: cs) = some t := by
          rw [show c :: cs = needle ++ t by simpa using he.symm]
          exact dropLit_append _ _
        simp [this]
      | cons a as =>
        right
        refine ⟨as, t, ?_⟩
        simpa using (List.cons.injEq a _ c cs).mp (by simpa using he) |>.2

theorem searchActual_eq_none {s : List Char} (h : ¬ cwLit <:+: s) : searchActual s = none :=
  searchLit_eq_none _ h

theorem unparseable_of_searchActual_none {s : List Char} (h : searchActual s = none) :
    outcomeOf s = Outcome.Unparseable ∧ analyze_weather_match s = unparseableMsg := by
  cases hx : searchExpected s <;>
    exact ⟨by simp [outcomeOf, h, hx], by simp [analyze_weather_match, h, hx]⟩

theorem nodeHasCondition_eq_vocab14 (t : List Char) :
    nodeHasCondition t = nodeHasVocab14 t := by
  simp only [nodeHasCondition, nodeHasVocab14, weatherConditions, vocab14,
    List.any_cons, List.any_nil, Bool.or_false]
  cases hP : containsSub (pyLower t) (pyLower (("Partly cloudy").toList)) with
  | false => simp
  | true =>
    have h2 : containsSub (pyLower t) (pyLower (("Cloudy").toList)) = true := by
      rw [containsSub_iff] at hP ⊢
      exact List.IsInfix.trans (by decide) hP
    rw [h2]
    simp

theorem find?_congr_pred {α : Type} {p q : α → Bool} (h : ∀ a, p a = q a) :
    ∀ l : List α, l.find? p = l.find? q := by
  intro l
  induction l with
  | nil => rfl
  | cons a as ih => simp [List.find?, h a, ih]

theorem firstSelectorHit_not_empty {hits : List (Option (List Char))} {t : List Char}
    (h : firstSelectorHit hits = some t) : t.isEmpty = false := by
  induction hits with
  | nil => simp [firstSelectorHit] at h
  | cons a rest ih =>
    cases a with
    | none => exact ih (by simpa [firstSelectorHit] using h)
    | some raw =>
      simp only [firstSelectorHit] at h
      split at h
      · exact ih h
      · next hne =>
        cases h
        simpa using hne

/-! ### Claim theorems -/

/-- C1: for every (actual, expected) pair of phrases extracted from a
well-formed report by the two fixed patterns, the analyzer outcome is `Match`
exactly when one normalized (stripped, lower-cased) phrase is a substring of
the other — bidirectional containment in either direction. -/
theorem matchAnalyzer_bidirectional_containment (s a e : List Char)
    (ha : searchActual s = some a) (he : searchExpected s = some e) :
    outcomeOf s = Outcome.Match ↔
      (containsSub (normalizePhrase a) (normalizePhrase e) = true ∨
       containsSub (normalizePhrase e) (normalizePhrase a) = true) := by
  constructor
  · intro hm
    by_contra hcon
    push_neg at hcon
    obtain ⟨h1, h2⟩ := hcon
    simp [outcomeOf, ha, he, Bool.eq_false_iff.mpr h1, Bool.eq_false_iff.mpr h2] at hm
  · intro hor
    rcases hor with h | h <;> simp [outcomeOf, ha, he, h]

/-- Witness for C1 on the claim's own examples: "Partly cloudy" vs "cloudy"
(Match by containment), "Sunny" vs "Rain" (NoMatch), "No rain expected" vs
"Rain" (the false-positive Match). -/
theorem matchAnalyzer_bidirectional_containment_witness :
    (outcomeOf (("Current weather in Pune: Partly cloudy. Expected: cloudy").toList)
        = Outcome.Match ↔
      (containsSub (normalizePhrase (("Partly cloudy").toList))
          (normalizePhrase (("cloudy").toList)) = true ∨
       containsSub (normalizePhrase (("cloudy").toList))
          (normalizePhrase (("Partly cloudy").toList)) = true)) ∧
    outcomeOf (("Current weather in Pune: Partly cloudy. Expected: cloudy").toList)
        = Outcome.Match ∧
    outcomeOf (("Current weather in Pune: Sunny. Expected: Rain").toList)
        = Outcome.NoMatch ∧
    outcomeOf (("Current weather in X: No rain expected. Expected: Rain").toList)
        = Outcome.Match :=
  ⟨matchAnalyzer_bidirectional_containment _ _ _ (by decide) (by decide),
   by decide, by decide, by decide⟩

/-- C4: on any input where either fixed pattern fails to match, the analyzer
returns the unparseable verdict; the embedding is a total function, so no
exception can escape. -/
theorem analyze_unparseable_on_missing_anchor (s : List Char)
    (h : searchActual s = none ∨ searchExpected s = none) :
    analyze_weather_match s = unparseableMsg ∧ outcomeOf s = Outcome.Unparseable := by
  rcases h with h | h
  · cases hx : searchExpected s <;>
      exact ⟨by simp [analyze_weather_match, h, hx], by simp [outcomeOf, h, hx]⟩
  · cases hx : searchActual s <;>
      exact ⟨by simp [analyze_weather_match, h, hx], by simp [outcomeOf, h, hx]⟩

/-- Witness for C4 at the concrete anchorless input "hello". -/
theorem analyze_unparseable_on_missing_anchor_witness :
    analyze_weather_match (("hello").toList) = unparseableMsg ∧
    outcomeOf (("hello").toList) = Outcome.Unparseable :=
  analyze_unparseable_on_missing_anchor _ (Or.inl (by decide))

/-- C2: the reasoning loop performs at most 3 capability invocations for every
reasoning function, capability registry and goal; and a reasoning function
that always re-chooses the same capability terminates in exactly 3 recorded
steps with the fixed bound-exceeded output. -/
theorem reasoningLoop_bounded :
    (∀ chooseNext exec goal, (reasoningLoop chooseNext exec goal).2.length ≤ 3) ∧
    (∀ exec goal cap inp,
      reasoningLoop (fun _ _ => AgentAction.invoke cap inp) exec goal
        = (boundExceededMsg, List.replicate 3 ⟨cap, inp, exec cap inp⟩)) := by
  constructor
  · intro c e g
    have h : ∀ n ts, (runLoop c e g n ts).2.length ≤ ts.length + n := by
      intro n
      induction n with
      | zero => intro ts; simp [runLoop]
      | succ n ih =>
        intro ts
        cases hc : c g ts with
        | finish ans =>
          simp only [runLoop, hc]
          omega
        | invoke cap inp =>
          have hrec := ih (ts ++ [⟨cap, inp, e cap inp⟩])
          simp only [runLoop, hc, List.length_append, List.length_cons,
            List.length_nil] at hrec ⊢
          omega
    simpa using h 3 []
  · intro e g cap inp
    rfl

theorem searchLit_at_head' {lit rest cap : List Char} (k : List Char → Option (List Char))
    (hne : lit ≠ []) (hk : k rest = some cap) :
    searchLit lit k (lit ++ rest) = some cap := by
  cases lit with
  | nil => exact absurd rfl hne
  | cons c lt => exact searchLit_at_head c lt k hk

/-- C9: both capture groups stop at the first period.  For a report built from
the template with a city free of newlines and of the `": "` trigger, and
phrases that do not start with a period and contain no newline (and, so that
the anchor scan cannot fire early, no capital `E` in city or actual phrase),
the two searches capture exactly the prefixes of the phrases up to their first
`'.'`, and the outcome is computed by comparing only those prefixes. -/
theorem captures_stop_at_first_period (city actual expected : List Char)
    (hc0 : city ≠ []) (hc1 : '\n' ∉ city) (hc2 : ¬ [':', ' '] <:+: city) (hc3 : 'E' ∉ city)
    (ha0 : actual ≠ []) (ha1 : '\n' ∉ actual) (ha2 : actual.head? ≠ some '.')
    (ha3 : 'E' ∉ actual)
    (he0 : expected ≠ []) (he1 : '\n' ∉ expected) (he2 : expected.head? ≠ some '.') :
    searchActual (weatherReport city actual expected)
        = some (actual.takeWhile (fun c => c ≠ '.')) ∧
    searchExpected (weatherReport city actual expected)
        = some (expected.takeWhile (fun c => c ≠ '.')) ∧
    outcomeOf (weatherReport city actual expected)
        = (if containsSub (normalizePhrase (actual.takeWhile (fun c => c ≠ '.')))
              (normalizePhrase (expected.takeWhile (fun c => c ≠ '.')))
            || containsSub (normalizePhrase (expected.takeWhile (fun c => c ≠ '.')))
              (normalizePhrase (actual.takeWhile (fun c => c ≠ '.')))
           then Outcome.Match else Outcome.NoMatch) := by
  have h2 : ((": ").toList : List Char) = [':', ' '] := by decide
  have h5 : ((". Expected: ").toList : List Char) = '.' :: ' ' :: expLit := by decide
  have hshape : weatherReport city actual expected
      = cwLit ++ (city ++ ':' :: ' ' :: (actual ++ '.' :: (' ' :: expLit ++ expected))) := by
    simp only [weatherReport, cwLit, h2, h5, List.append_assoc, List.cons_append,
      List.nil_append]
  have hcap : lazyCapDot (actual ++ '.' :: (' ' :: expLit ++ expected))
      = some (actual.takeWhile (fun c => c ≠ '.')) :=
    lazyCapDot_append _ ha0 ha1 ha2
  have hmcc : matchColonCapture false
      (city ++ ':' :: ' ' :: (actual ++ '.' :: (' ' :: expLit ++ expected)))
      = some (actual.takeWhile (fun c => c ≠ '.')) :=
    matchColonCapture_append false (Or.inl hc0) hc1 hc2 hcap
  have hA : searchActual (weatherReport city actual expected)
      = some (actual.takeWhile (fun c => c ≠ '.')) := by
    rw [searchActual, hshape]
    exact searchLit_at_head' _ (by decide) hmcc
  have hshapeE : weatherReport city actual expected
      = (cwLit ++ city ++ [':', ' '] ++ actual ++ ['.', ' ']) ++ (expLit ++ expected) := by
    simp only [weatherReport, cwLit, h2, h5, List.append_assoc, List.cons_append,
      List.nil_append]
  have hpre : 'E' ∉ (cwLit ++ city ++ [':', ' '] ++ actual ++ ['.', ' ']) := by
    intro hm
    simp only [List.mem_append] at hm
    rcases hm with (((h | h) | h) | h) | h
    · exact absurd h (by decide)
    · exact hc3 h
    · exact absurd h (by decide)
    · exact ha3 h
    · exact absurd h (by decide)
  have hexp : expLit = 'E' :: (("xpected: ").toList) := by decide
  have hE : searchExpected (weatherReport city actual expected)
      = some (expected.takeWhile (fun c => c ≠ '.')) := by
    rw [searchExpected, hshapeE, hexp]
    rw [searchLit_skip (("xpected: ").toList) lazyCapEnd hpre]
    rw [← hexp]
    exact searchLit_at_head' _ (by decide) (lazyCapEnd_eq he0 he1 he2)
  exact ⟨hA, hE, by simp [outcomeOf, hA, hE]⟩

/-- Witness for C9: actual phrase "Sunny. Windy later" is truncated to
"Sunny" before the comparison, so the trailing text is ignored and the
verdict is Match against expected "Sunny". -/
theorem captures_stop_at_first_period_witness :
    searchActual (weatherReport (("Pune").toList) (("Sunny. Windy later").toList)
        (("Sunny").toList)) = some ((("Sunny. Windy later").toList).takeWhile (fun c => c ≠ '.')) ∧
    searchExpected (weatherReport (("Pune").toList) (("Sunny. Windy later").toList)
        (("Sunny").toList)) = some ((("Sunny").toList).takeWhile (fun c => c ≠ '.')) ∧
    outcomeOf (weatherReport (("Pune").toList) (("Sunny. Windy later").toList)
        (("Sunny").toList))
      = (if containsSub (normalizePhrase ((("Sunny. Windy later").toList).takeWhile (fun c => c ≠ '.')))
            (normalizePhrase ((("Sunny").toList).takeWhile (fun c => c ≠ '.')))
          || containsSub (normalizePhrase ((("Sunny").toList).takeWhile (fun c => c ≠ '.')))
            (normalizePhrase ((("Sunny. Windy later").toList).takeWhile (fun c => c ≠ '.')))
         then Outcome.Match else Outcome.NoMatch) :=
  captures_stop_at_first_period _ _ _ (by decide) (by decide) (by decide) (by decide)
    (by decide) (by decide) (by decide) (by decide) (by decide) (by decide) (by decide)

/-- C3: when the StructuredSelector strategy finds non-empty (stripped) text
`t`, the extraction chain returns exactly `t` and the report embeds `t`
verbatim; the later strategies are never consulted — the statement holds for
every value of the page's text nodes, title and markup, so the result does not
depend on them. -/
theorem structuredSelector_short_circuit (p : Page) (input part0 part1 t : List Char)
    (hsplit : pySplitChar '|' input = [part0, part1])
    (hsel : firstSelectorHit p.selectorHits = some t) :
    extractCondition p = some t ∧
    check_weather (WebEnv.ok p) input = weatherReport (pyStrip part0) t (pyStrip part1) := by
  have ht : t.isEmpty = false := firstSelectorHit_not_empty hsel
  have hex : extractCondition p = some t := by
    simp [extractCondition, hsel, isTruthy, ht]
  refine ⟨hex, ?_⟩
  simp [check_weather, hsplit, hex, ht]

/-- Witness for C3: a page whose second selector finds " Sunny " while the
text nodes, title and markup hold distracting values; the stripped selector
text wins. -/
theorem structuredSelector_short_circuit_witness :
    extractCondition ⟨[none, some ((" Sunny ").toList)], [("Rainy day").toList],
        ("Storm - Weather").toList, ("<div id=\"wob_dc\">Haze</div>").toList⟩
      = some (("Sunny").toList) ∧
    check_weather (WebEnv.ok ⟨[none, some ((" Sunny ").toList)], [("Rainy day").toList],
        ("Storm - Weather").toList, ("<div id=\"wob_dc\">Haze</div>").toList⟩)
        (("Pune|Clear").toList)
      = weatherReport (pyStrip (("Pune").toList)) (("Sunny").toList)
          (pyStrip (("Clear").toList)) :=
  structuredSelector_short_circuit _ _ _ _ _ (by decide) (by decide)

/-- C6: an input that does not split on the pipe separator into exactly two
segments makes `check_weather` return the fixed invalid-format string, for
every state of the browser collaborator — in particular no document is
fetched and no extraction strategy can influence the result. -/
theorem invalid_format_short_circuit (env : WebEnv) (input : List Char)
    (h : (pySplitChar '|' input).length ≠ 2) :
    check_weather env input = invalidFormatMsg := by
  rcases hp : pySplitChar '|' input with _ | ⟨a, _ | ⟨b, _ | ⟨c, l⟩⟩⟩ <;>
    simp_all [check_weather]

/-- Witness for C6 at the separatorless input "PuneSunny" (one segment). -/
theorem invalid_format_short_circuit_witness :
    check_weather WebEnv.noDriver (("PuneSunny").toList) = invalidFormatMsg :=
  invalid_format_short_circuit WebEnv.noDriver _ (by decide)

/-- C7 counterexample: the claim says the scan returns the node's full text,
but the code strips it: the node "Sunny\n" is selected yet the returned phrase
is "Sunny", not the full node text. -/
theorem keywordScan_full_text_counterexample :
    keywordScan [("Sunny\n").toList] = some (("Sunny").toList) ∧
      (("Sunny").toList : List Char) ≠ ("Sunny\n").toList := by decide

/-- C7 (amended): the KeywordScan strategy scans exactly the text nodes longer
than 2 characters and returns the stripped full text of the first such node
containing, case-insensitively, some term of the 14-term closed vocabulary of
the specification (the source's extra "Partly cloudy" entry is redundant);
a node containing no vocabulary term is never selected. -/
theorem keywordScan_characterization (nodes : List (List Char)) :
    keywordScan nodes
        = ((nodes.filter (fun t => decide (2 < t.length))).map pyStrip).find? nodeHasVocab14 ∧
      ∀ t, keywordScan nodes = some t →
        nodeHasVocab14 t = true ∧ ∃ n, n ∈ nodes ∧ 2 < n.length ∧ t = pyStrip n := by
  have hfind : keywordScan nodes
      = ((nodes.filter (fun t => decide (2 < t.length))).map pyStrip).find? nodeHasVocab14 := by
    rw [keywordScan]
    exact find?_congr_pred nodeHasCondition_eq_vocab14 _
  refine ⟨hfind, ?_⟩
  intro t ht
  rw [hfind] at ht
  refine ⟨List.find?_some ht, ?_⟩
  have hmem := List.mem_of_find?_eq_some ht
  simp only [List.mem_map, List.mem_filter, decide_eq_true_eq] at hmem
  obtain ⟨n, ⟨hn, hlen⟩, hstrip⟩ := hmem
  exact ⟨n, hn, hlen, hstrip.symm⟩

/-- Witness for C7: on a two-node list the scan skips the short node and picks
the node containing "showers"; it is a vocabulary-containing stripped node of
the list. -/
theorem keywordScan_characterization_witness :
    nodeHasVocab14 (("Cloudy with occasional showers").toList) = true ∧
      ∃ n, n ∈ [("ab").toList, ("Cloudy with occasional showers").toList] ∧
        2 < n.length ∧ (("Cloudy with occasional showers").toList : List Char) = pyStrip n :=
  (keywordScan_characterization _).2 _ (by decide)

theorem navErrorMsg_unparseable {msg : List Char} (h : ¬ cwLit <:+: navErrorMsg msg) :
    outcomeOf (navErrorMsg msg) = Outcome.Unparseable ∧
      analyze_weather_match (navErrorMsg msg) = unparseableMsg :=
  unparseable_of_searchActual_none (searchActual_eq_none h)

/-- C8: both fetch-failure modes of `check_weather` are surfaced as the fixed
strings (the embedding is total, so nothing is raised); those strings are
unparseable for the analyzer, whose verdict string does not contain the
"SUCCESS" marker, so the exit-code map produces 1.  For the navigation-error
string the statement is conditional on the exception text not containing the
actual-condition anchor. -/
theorem fetch_failure_pipeline (input part0 part1 : List Char)
    (hsplit : pySplitChar '|' input = [part0, part1]) :
    check_weather WebEnv.noDriver input = webDriverFailMsg ∧
    outcomeOf webDriverFailMsg = Outcome.Unparseable ∧
    analyze_weather_match webDriverFailMsg = unparseableMsg ∧
    containsSub unparseableMsg successLit = false ∧
    exitCodeFor unparseableMsg = 1 ∧
    (∀ msg, ¬ cwLit <:+: navErrorMsg msg →
      check_weather (WebEnv.navError msg) input = navErrorMsg msg ∧
      outcomeOf (navErrorMsg msg) = Outcome.Unparseable ∧
      analyze_weather_match (navErrorMsg msg) = unparseableMsg ∧
      exitCodeFor (analyze_weather_match (navErrorMsg msg)) = 1) := by
  refine ⟨by simp [check_weather, hsplit], by decide, by decide, by decide, by decide, ?_⟩
  intro msg hm
  obtain ⟨ho, ha⟩ := navErrorMsg_unparseable hm
  refine ⟨by simp [check_weather, hsplit], ho, ha, ?_⟩
  rw [ha]
  decide

/-- Witness for C8 at input "Pune|Sunny" and the concrete exception text
"net::ERR_NAME_NOT_RESOLVED". -/
theorem fetch_failure_pipeline_witness :
    check_weather (WebEnv.navError (("net::ERR_NAME_NOT_RESOLVED").toList))
        (("Pune|Sunny").toList)
      = navErrorMsg (("net::ERR_NAME_NOT_RESOLVED").toList) ∧
    outcomeOf (navErrorMsg (("net::ERR_NAME_NOT_RESOLVED").toList)) = Outcome.Unparseable ∧
    analyze_weather_match (navErrorMsg (("net::ERR_NAME_NOT_RESOLVED").toList))
      = unparseableMsg ∧
    exitCodeFor (analyze_weather_match (navErrorMsg (("net::ERR_NAME_NOT_RESOLVED").toList)))
      = 1 :=
  (fetch_failure_pipeline (("Pune|Sunny").toList) (("Pune").toList) (("Sunny").toList)
    (by decide)).2.2.2.2.2 _ (by decide)

/-- C10: each non-success report string `check_weather` can return — the
invalid-format string, the WebDriver-failure string, the navigation-error
string and the no-evidence report — fails the actual-condition anchor search
and therefore receives the `Unparseable` verdict; for the two strings with
embedded free text this is conditional on that text not containing the
anchor. -/
theorem non_success_reports_unparseable :
    (searchActual invalidFormatMsg = none ∧
      outcomeOf invalidFormatMsg = Outcome.Unparseable) ∧
    (searchActual webDriverFailMsg = none ∧
      outcomeOf webDriverFailMsg = Outcome.Unparseable) ∧
    (∀ msg, ¬ cwLit <:+: navErrorMsg msg →
      searchActual (navErrorMsg msg) = none ∧
        outcomeOf (navErrorMsg msg) = Outcome.Unparseable) ∧
    (∀ city expected, ¬ cwLit <:+: noEvidenceReport city expected →
      searchActual (noEvidenceReport city expected) = none ∧
        outcomeOf (noEvidenceReport city expected) = Outcome.Unparseable) := by
  refine ⟨⟨by decide, by decide⟩, ⟨by decide, by decide⟩, ?_, ?_⟩
  · intro msg hm
    have hn := searchActual_eq_none hm
    exact ⟨hn, (unparseable_of_searchActual_none hn).1⟩
  · intro city expected hm
    have hn := searchActual_eq_none hm
    exact ⟨hn, (unparseable_of_searchActual_none hn).1⟩

/-- Witness for C10 at a concrete exception text and a concrete no-evidence
report for city "Pune", expected "Sunny". -/
theorem non_success_reports_unparseable_witness :
    (searchActual (navErrorMsg (("timeout").toList)) = none ∧
      outcomeOf (navErrorMsg (("timeout").toList)) = Outcome.Unparseable) ∧
    (searchActual (noEvidenceReport (("Pune").toList) (("Sunny").toList)) = none ∧
      outcomeOf (noEvidenceReport (("Pune").toList) (("Sunny").toList))
        = Outcome.Unparseable) :=
  ⟨non_success_reports_unparseable.2.2.1 _ (by decide),
   non_success_reports_unparseable.2.2.2 _ _ (by decide)⟩

/-- C5: the exit code is 0 exactly when the argument count is right and the
final agent output contains the literal "SUCCESS"; the code is always 0 or 1;
and a wrong argument count prints the usage message and exits 1. -/
theorem cli_exit_code_mapping (argv : List (List Char)) (out : List Char) :
    ((mainRun argv out).code = 0 ↔
      (argv.length = 3 ∧ containsSub out successLit = true)) ∧
    ((mainRun argv out).code = 0 ∨ (mainRun argv out).code = 1) ∧
    (argv.length ≠ 3 → mainRun argv out = ⟨true, 1⟩) := by
  by_cases h : argv.length = 3 <;>
    cases hs : containsSub out successLit <;>
      simp [mainRun, exitCodeFor, h, hs]

/-- Witness for C5: with too few arguments the usage path is taken with
exit code 1; with the right count and a SUCCESS-bearing output the code is 0. -/
theorem cli_exit_code_mapping_witness :
    mainRun [("weather_checker_agent.py").toList, ("Pune").toList] (("anything").toList)
      = ⟨true, 1⟩ ∧
    (mainRun [("weather_checker_agent.py").toList, ("Pune").toList, ("Sunny").toList]
      (("Final: SUCCESS").toList)).code = 0 :=
  ⟨(cli_exit_code_mapping _ _).2.2 (by decide),
   (cli_exit_code_mapping _ _).1.mpr ⟨by decide, by decide⟩⟩
